import Mathlib

/-!
# Verification of the knowledge-repo retrieval and LLM-utility layer

This development shallowly embeds the parts of the repository that the
specification talks about:

* `src/llm_utils.py` — response-content extraction and the two-leg LLM
  request fallback (`extract_content_from_response`, `make_llm_request`);
* `src/retry.py` — the `retry` decorator with exponential backoff;
* `src/retriever.py` — the ChromaDB-backed index manager
  (`index_vault`, `incremental_index`, `remove_from_index`,
  `get_index_stats`, `query_vault`) and the module-level embedding-model
  initialization with its `SimpleMockEmbedding` fallback.

Python dictionaries coming back from LLM HTTP endpoints are modelled by
`PyVal` (strings, lists, dicts, None); the Python truthiness test used by
the source (`if data['choices']:`) is modelled by `PyVal.truthy`.  The
embedding keeps the source's membership tests (`'k' in d`) as dictionary
lookups; response values are assumed to be built from strings, lists and
dicts, which is the shape every call site of these functions produces.
-/

namespace KnowledgeRepo

/-- A Python value as it appears in a decoded JSON response: a string, a
list, a string-keyed dictionary, or `None`.  (Numbers never reach the
content-extraction code paths, so they are not needed.) -/
inductive PyVal where
  | str (s : String)
  | list (xs : List PyVal)
  | dict (fields : List (String × PyVal))
  | none

namespace PyVal

/-- Dictionary lookup: `d[k]` when `'k' in d`; `Option.none` when the key is
absent or the value is not a dictionary. -/
def dGet : PyVal → String → Option PyVal
  | .dict fields, k => fields.lookup k
  | _, _ => Option.none

/-- Python truthiness of the values that occur in responses: empty strings,
empty lists, empty dicts and `None` are falsy, everything else truthy. -/
def truthy : PyVal → Bool
  | .str s => !s.isEmpty
  | .list xs => !xs.isEmpty
  | .dict fields => !fields.isEmpty
  | .none => false

/-- Python `xs[0]` on a (non-empty) list value. -/
def first : PyVal → PyVal
  | .list (x :: _) => x
  | _ => .none

end PyVal

open PyVal

/-- Shallow embedding of the first block ("OpenAI-like format", source
lines 26–38) of `extract_content_from_response` from `src/llm_utils.py`
(lines 15–62).  The source checks, in this order:

1. `'choices' in data and data['choices']` (truthiness!), then
   `'message' in choice and 'content' in choice['message']` returns
   `choice['message']['content']`, `elif 'text' in choice` returns
   `choice['text']`; when neither fires, control falls through;
2. `'message' in data and data['message']` (truthiness), then
   `'content' in data['message']` returns `data['message']['content']`;
3. `'content' in data` returns `data['content']`;
4. `'response' in data` returns `data['response']`;
5. otherwise logs and returns `None` (here `Option.none`).

The returned value is whatever Python object sits in the field — the
source performs no emptiness check on it.  The three `if` blocks of the
source are embedded as one helper each. -/
def extractChoicesBlock (data : PyVal) : Option PyVal :=
  match data.dGet "choices" with
  | some cs =>
    if cs.truthy then
      match (cs.first).dGet "message" with
      | some msg =>
        match msg.dGet "content" with
        | some c => some c
        | Option.none => (cs.first).dGet "text"
      | Option.none => (cs.first).dGet "text"
    else Option.none
  | Option.none => Option.none

/-- The `'message' in data and data['message']` block of
`extract_content_from_response` (source lines 41–46). -/
def extractMessageBlock (data : PyVal) : Option PyVal :=
  match data.dGet "message" with
  | some m => if m.truthy then m.dGet "content" else Option.none
  | Option.none => Option.none

/-- The overall extraction: the choices block, then the top-level message
block, then top-level `content`, then top-level `response`, else `None`. -/
def extract_content_from_response (data : PyVal) : Option PyVal :=
  match extractChoicesBlock data with
  | some c => some c
  | Option.none =>
    match extractMessageBlock data with
    | some c => some c
    | Option.none =>
      match data.dGet "content" with
      | some c => some c
      | Option.none => data.dGet "response"

/-- The field-priority chain as the spec words it, one lookup per shape:
`choices[0].message.content`, then `choices[0].text`, then top-level
`message.content`, then `content`, then `response`.  Used to compare the
source's behaviour against the spec's description of the order. -/
def choicesMessageContent (data : PyVal) : Option PyVal :=
  match data.dGet "choices" with
  | some cs => if cs.truthy then (cs.first.dGet "message").bind (·.dGet "content") else Option.none
  | Option.none => Option.none

/-- Spec-side lookup for `choices[0].text` (reached only when the
`choices[0].message.content` path yielded nothing). -/
def choicesText (data : PyVal) : Option PyVal :=
  match data.dGet "choices" with
  | some cs => if cs.truthy then cs.first.dGet "text" else Option.none
  | Option.none => Option.none

/-- Spec-side lookup for top-level `message.content` (guarded by the
truthiness of `data['message']`, as in the source). -/
def topMessageContent (data : PyVal) : Option PyVal :=
  match data.dGet "message" with
  | some m => if m.truthy then m.dGet "content" else Option.none
  | Option.none => Option.none

/-- An HTTP response as `make_llm_request` sees one: a status code and the
decoded JSON body (`response.json()`). -/
structure HttpResponse where
  status : Nat
  body : PyVal

/-- Outcome of one HTTP leg of `make_llm_request`: either a response, or a
network-class exception (`ConnectionError`, `Timeout`, `HTTPError`) carrying
its message — exactly the classes the source catches. -/
def LegOutcome := Except String HttpResponse

/-- What the OpenAI-compatible leg of `make_llm_request` yields
(`src/llm_utils.py` lines 147–167): on a 200 response, the extracted
content provided it is truthy; on any other status, falsy content, or a
caught network exception, nothing (control falls through to the native
leg). -/
def openaiLegContent (leg : LegOutcome) : Option PyVal :=
  match leg with
  | .ok resp =>
    if resp.status == 200 then
      match extract_content_from_response resp.body with
      | some c => if c.truthy then some c else Option.none
      | Option.none => Option.none
    else Option.none
  | .error _ => Option.none

/-- What the native-Ollama leg of `make_llm_request` yields
(`src/llm_utils.py` lines 181–193): `raise_for_status()` turns a ≥ 400
status into an `HTTPError` that the surrounding `except` catches, so only a
< 400 response with truthy extracted content yields anything. -/
def nativeLegContent (leg : LegOutcome) : Option PyVal :=
  match leg with
  | .ok resp =>
    if 400 ≤ resp.status then Option.none
    else
      match extract_content_from_response resp.body with
      | some c => if c.truthy then some c else Option.none
      | Option.none => Option.none
  | .error _ => Option.none

/-- Shallow embedding of `make_llm_request` from `src/llm_utils.py`
(lines 102–195), parametrised by the outcome of each HTTP leg: try the
OpenAI-compatible endpoint, fall back to the native endpoint, and when
neither yields truthy content raise
`ValueError("Could not extract content from any LLM endpoint")`.
(The preliminary connectivity probe only logs and never changes control
flow, so it does not appear in the embedding.) -/
def make_llm_request (openaiLeg nativeLeg : LegOutcome) : Except String PyVal :=
  match openaiLegContent openaiLeg with
  | some c => .ok c
  | Option.none =>
    match nativeLegContent nativeLeg with
    | some c => .ok c
    | Option.none => .error "Could not extract content from any LLM endpoint"

/-- `subListAt pat s`: the character list `pat` occurs contiguously inside
`s`. -/
def subListAt (pat : List Char) : List Char → Bool
  | [] => pat.isEmpty
  | c :: rest => pat.isPrefixOf (c :: rest) || subListAt pat rest

/-- `strContains s pat`: the string `pat` occurs inside `s` (a failure
message "names" an error when the error's text occurs in the message). -/
def strContains (s pat : String) : Bool :=
  subListAt pat.data s.data

/-- Outcome of a call to a function wrapped by the `retry` decorator of
`src/retry.py`: the wrapped call returned a value, re-raised the last
exception, or — when `max_attempts` is 0 so the `while` loop never runs —
fell off the end of `wrapper` (Python then returns `None`). -/
inductive RetryOutcome (E A : Type) where
  | returned (a : A)
  | raised (e : E)
  | fellThrough
  deriving DecidableEq

/-- Full observable behaviour of one `wrapper(*args)` call: its outcome,
how many times it invoked the wrapped function, and the argument of each
`time.sleep` in order. -/
structure RetryTrace (E A : Type) where
  outcome : RetryOutcome E A
  calls : Nat
  sleeps : List Nat
  deriving DecidableEq

/-- The `while attempt <= max_attempts` loop of `retry` (`src/retry.py`
lines 11–30), starting at attempt number `attempt` with the current sleep
delay `currentDelay`.  `f k` is the outcome of the `k`-th invocation of the
wrapped function (1-indexed).  On an exception at the final attempt the
exception is re-raised; otherwise the loop sleeps `currentDelay`, multiplies
it by `backoff`, and continues. -/
def retryGo {E A : Type} (f : Nat → Except E A) (maxAttempts : Nat)
    (attempt currentDelay backoff : Nat) : RetryTrace E A :=
  if attempt ≤ maxAttempts then
    match f attempt with
    | .ok a => ⟨.returned a, 1, []⟩
    | .error e =>
      if attempt = maxAttempts then ⟨.raised e, 1, []⟩
      else
        let r := retryGo f maxAttempts (attempt + 1) (currentDelay * backoff) backoff
        ⟨r.outcome, r.calls + 1, currentDelay :: r.sleeps⟩
  else ⟨.fellThrough, 0, []⟩
termination_by maxAttempts + 1 - attempt
decreasing_by omega

/-- Shallow embedding of `retry(max_attempts, delay, backoff)` applied to a
function whose `k`-th invocation yields `f k`: `attempt` starts at 1 and
`current_delay` starts at `delay`. -/
def retryRun {E A : Type} (maxAttempts delay backoff : Nat)
    (f : Nat → Except E A) : RetryTrace E A :=
  retryGo f maxAttempts 1 delay backoff

/-- The error carried by a failed `Except`, and `""` on success (only ever
read below when the value is known to be an `error`). -/
def errStr {A : Type} : Except String A → String
  | .error e => e
  | .ok _ => ""

/-- Whether an invocation outcome is a normal return (`true`) or a raised
exception (`false`). -/
def exceptOk {E A : Type} : Except E A → Bool
  | .ok _ => true
  | .error _ => false

/-!
### The ChromaDB-backed index manager (`src/retriever.py`)

The store state is the single collection `"obsidian_knowledge"` that every
function in the source addresses.  A `chromadb.Collection` handle (and the
`ChromaVectorStore` / `StorageContext` objects wrapping it) stays bound to
the *identity* of the collection object it was created from; dropping and
recreating the collection produces a fresh identity, and operations through
a stale handle fail ("collection does not exist"), as they do against the
real store.  Identities are modelled by a generation counter, a handle by
the generation number it captured.
-/

/-- One entry of the collection: a chunk of text with its `file_name`
metadata (the only metadata field the source ever filters on). -/
structure Entry where
  file_name : String
  text : String
  deriving DecidableEq

/-- State of the Chroma database: the current collection's generation
(bumped on drop-and-recreate), its entries, and whether the bulk
`collection.delete(where={})` "delete-all" primitive is supported by the
store (the fallback branch of `index_vault` exists precisely because it may
not be). -/
structure ChromaDB where
  generation : Nat
  entries : List Entry
  deleteAllSupported : Bool
  deriving DecidableEq

/-- `get_vector_store()` (`src/retriever.py` lines 123–133):
`get_or_create_collection("obsidian_knowledge")` returns a handle to the
current collection — its generation number.  (The collection always exists
afterwards, so in this model the state is unchanged.) -/
def get_vector_store (db : ChromaDB) : Nat :=
  db.generation

/-- `collection.delete(where={})` through handle `h`
(`src/retriever.py` line 147): fails on a stale handle; clears all entries
when the store supports the bulk delete-all, else raises. -/
def collectionDeleteAll (h : Nat) (db : ChromaDB) : Except String ChromaDB :=
  if h = db.generation then
    if db.deleteAllSupported then .ok { db with entries := [] }
    else .error "delete-all unsupported"
  else .error "collection does not exist"

/-- `db.delete_collection("obsidian_knowledge")` followed by
`get_or_create_collection` (`src/retriever.py` lines 152–154): the
collection is dropped and recreated empty under a fresh identity. -/
def deleteAndRecreate (db : ChromaDB) : ChromaDB :=
  { db with generation := db.generation + 1, entries := [] }

/-- Inserting embedded chunks through handle `h` (what
`VectorStoreIndex.from_documents(..., storage_context=...)` and
`index.insert(doc)` do to the collection): appends the new entries, or
fails if the handle is stale. -/
def collectionInsert (h : Nat) (new : List Entry) (db : ChromaDB) :
    Except String ChromaDB :=
  if h = db.generation then .ok { db with entries := db.entries ++ new }
  else .error "collection does not exist"

/-- A document as the `SimpleDirectoryReader` loads it: its `file_name`
metadata and the chunks the node parser will split it into. -/
structure Document where
  file_name : String
  chunks : List String
  deriving DecidableEq

/-- The collection entries produced by embedding and chunking a list of
loaded documents, in load order. -/
def chunksOf (docs : List Document) : List Entry :=
  docs.flatMap fun d => d.chunks.map fun t => ⟨d.file_name, t⟩

/-- One attempt of `index_vault(force_reindex)` (`src/retriever.py`
lines 136–184), with the documents found under `VAULT_PATH` passed in as
`docs`.  Note the source builds `storage_context` from the *initial*
`vector_store` (line 140) before the force-clear block; on the fallback
branch it reassigns the local `vector_store` (line 154) but never rebuilds
`storage_context`, so the subsequent `VectorStoreIndex.from_documents`
still writes through the handle captured before the drop.  The result is
`Option Unit`: `none` models the early `return None` when no documents were
loaded, `some ()` the returned index. -/
def indexVaultAttempt (docs : List Document) (force : Bool) (db : ChromaDB) :
    Except String (Option Unit) × ChromaDB :=
  let h := get_vector_store db
  let db1 :=
    if force then
      match collectionDeleteAll h db with
      | .ok db' => db'
      | .error _ => deleteAndRecreate db
    else db
  if docs.isEmpty then (.ok Option.none, db1)
  else
    match collectionInsert h (chunksOf docs) db1 with
    | .ok db2 => (.ok (some ()), db2)
    | .error e => (.error e, db1)

/-- The `retry` decorator specialised to a stateful body: a failed attempt
leaves whatever state mutations it made in place and the next attempt runs
from that state; the last failure is re-raised. -/
def retryState {A : Type} :
    Nat → (ChromaDB → Except String A × ChromaDB) → ChromaDB →
      Except String A × ChromaDB
  | 0, _, db => (.error "no attempts", db)
  | 1, f, db => f db
  | n + 2, f, db =>
    match f db with
    | (.ok a, db') => (.ok a, db')
    | (.error _, db') => retryState (n + 1) f db'

/-- `index_vault` as called: the attempt body wrapped in
`@retry(max_attempts=2, delay=5)`. -/
def index_vault (docs : List Document) (force : Bool) (db : ChromaDB) :
    Except String (Option Unit) × ChromaDB :=
  retryState 2 (indexVaultAttempt docs force) db

/-- One attempt of `incremental_index(file_path)` (`src/retriever.py`
lines 253–312), with the documents loaded from `file_path` passed in as
`docs`: on zero documents it warns and returns early; otherwise it inserts
each document's chunks through the freshly obtained handle, touching no
existing entry.  The Python function always returns `None`. -/
def incrementalIndexAttempt (docs : List Document) (db : ChromaDB) :
    Except String Unit × ChromaDB :=
  let h := get_vector_store db
  if docs.isEmpty then (.ok (), db)
  else
    match collectionInsert h (chunksOf docs) db with
    | .ok db' => (.ok (), db')
    | .error e => (.error e, db)

/-- `incremental_index` as called: wrapped in
`@retry(max_attempts=2, delay=1)`. -/
def incremental_index (docs : List Document) (db : ChromaDB) :
    Except String Unit × ChromaDB :=
  retryState 2 (incrementalIndexAttempt docs) db

/-- Splitting a character list on a separator character (the groups between
occurrences of the separator, in order). -/
def splitOnChar (sep : Char) : List Char → List (List Char)
  | [] => [[]]
  | c :: cs =>
    if c == sep then [] :: splitOnChar sep cs
    else
      match splitOnChar sep cs with
      | [] => [[c]]
      | g :: gs => (c :: g) :: gs

/-- `os.path.basename` on the POSIX paths this repository handles: the part
after the last `/`. -/
def basename (p : String) : String :=
  String.mk ((splitOnChar '/' p.data).getLastD [])

/-- Shallow embedding of `remove_from_index(file_path)` (`src/retriever.py`
lines 314–332): fetch the ids whose metadata `file_name` equals
`basename(file_path)`; if any, delete exactly those; else log a warning.
The Python function has no `return` statement, so its value is always
`None` — modelled as `Option Nat` (the type a returned count would have)
that is always `Option.none`. -/
def remove_from_index (file_path : String) (db : ChromaDB) :
    Except String (Option Nat) × ChromaDB :=
  let base := basename file_path
  let matching := db.entries.filter fun e => e.file_name == base
  if matching.isEmpty then (.ok Option.none, db)
  else (.ok Option.none,
    { db with entries := db.entries.filter fun e => !(e.file_name == base) })

/-- A value of the stats mapping returned by `get_index_stats`. -/
inductive StatVal where
  | nat (n : Nat)
  | str (s : String)
  deriving DecidableEq

/-- Shallow embedding of `get_index_stats()` (`src/retriever.py`
lines 334–349), parametrised by the outcome `vs` of the store access inside
the `try` block (`get_vector_store` / `collection.count()` may raise
against a broken store): on success the three-key mapping, on any internal
error the caught exception is logged and the empty mapping `{}` is
returned — the function itself never raises. -/
def get_index_stats (vs : Except String ChromaDB) (dbPath : String) :
    List (String × StatVal) :=
  match vs with
  | .ok db =>
    [("total_documents", .nat db.entries.length),
     ("collection_name", .str "obsidian_knowledge"),
     ("db_path", .str dbPath)]
  | .error _ => []

/-- A retrieved source node as `query_vault` reads it: the
`file_name` metadata entry (absent gives `'Unknown'`) and the node text.
(The float similarity score is not modelled; no claim touches it.) -/
structure SourceNode where
  file_name : Option String
  text : String

/-- The per-source dictionary `query_vault` builds (lines 228–232). -/
structure SourceInfo where
  file_path : String
  content_preview : String

/-- `node.text[:200] + "..."` when the text exceeds 200 characters. -/
def contentPreview (t : String) : String :=
  if 200 < t.length then (t.take 200) ++ "..." else t

/-- Building one source dictionary from a node (lines 228–233). -/
def sourceInfoOfNode (n : SourceNode) : SourceInfo :=
  ⟨n.file_name.getD "Unknown", contentPreview n.text⟩

/-- The dictionary `query_vault` returns. -/
structure QueryResult where
  answer : String
  sources : List SourceInfo
  query : String

/-- One attempt of `query_vault(query_text, top_k)` (`src/retriever.py`
lines 186–251), parametrised by the external llama-index query engine
(`index.as_query_engine(similarity_top_k=top_k, ...).query`), which is
handed `top_k` exactly as received — the source contains no validation of
`top_k` anywhere.  On engine success the answer string and the mapped
source list are returned; an engine exception is logged and re-raised. -/
def queryVaultAttempt
    (engine : String → Int → Except String (String × List SourceNode))
    (query_text : String) (top_k : Int) : Except String QueryResult :=
  match engine query_text top_k with
  | .ok (resp, nodes) => .ok ⟨resp, nodes.map sourceInfoOfNode, query_text⟩
  | .error e => .error e

/-- The `retry` decorator specialised to a stateless body. -/
def retryExcept {A : Type} : Nat → (Unit → Except String A) → Except String A
  | 0, _ => .error "no attempts"
  | 1, f => f ()
  | n + 2, f =>
    match f () with
    | .ok a => .ok a
    | .error _ => retryExcept (n + 1) f

/-- `query_vault` as called: wrapped in `@retry(max_attempts=2, delay=1)`. -/
def query_vault
    (engine : String → Int → Except String (String × List SourceNode))
    (query_text : String) (top_k : Int) : Except String QueryResult :=
  retryExcept 2 fun _ => queryVaultAttempt engine query_text top_k

/-- The embedding model the retriever module ends up installing in
`Settings.embed_model` (`src/retriever.py` lines 51–121). -/
inductive EmbedModel where
  | huggingFace (model_name : String)
  | simpleMock
  deriving DecidableEq

/-- The model name the `try` block passes to `HuggingFaceEmbedding`
(lines 59–78): the `EMBEDDING_MODEL_PATH` value when it is set, non-empty
(Python truthiness) and exists on disk, else `"all-MiniLM-L6-v2"`. -/
def chosenEmbedModelName (local_model_path : Option String)
    (pathExists : String → Bool) : String :=
  match local_model_path with
  | some p => if !p.isEmpty && pathExists p then p else "all-MiniLM-L6-v2"
  | Option.none => "all-MiniLM-L6-v2"

/-- Module-level embedding initialization (`src/retriever.py` lines 51–121),
parametrised by the outcome `hfInit name` of constructing
`HuggingFaceEmbedding(model_name=name)`.  An `Except.error` result would
model the module raising at import (aborting startup); the source instead
catches every exception, logs at error/debug level, and installs
`SimpleMockEmbedding()` — so initialization always completes. -/
def initEmbedModel (local_model_path : Option String)
    (pathExists : String → Bool) (hfInit : String → Except String Unit) :
    Except String EmbedModel :=
  match hfInit (chosenEmbedModelName local_model_path pathExists) with
  | .ok _ => .ok (.huggingFace (chosenEmbedModelName local_model_path pathExists))
  | .error _ => .ok .simpleMock

/-!
## Theorems
-/

/-- C4 (counterexample): on the response `{"content": "", "response": "x"}`
the extraction returns the empty string found under `content` — a field
that is present but empty *does* win — instead of falling through to the
non-empty `response` field as the claim requires. -/
theorem extract_empty_field_wins :
    extract_content_from_response
        (.dict [("content", .str ""), ("response", .str "x")]) = some (.str "")
    ∧ PyVal.truthy (.str "") = false
    ∧ extract_content_from_response
        (.dict [("content", .str ""), ("response", .str "x")]) ≠ some (.str "x") := by
  refine ⟨rfl, rfl, fun h => ?_⟩
  injection h with h1
  injection h1 with h2
  exact absurd h2 (by decide)

/-- C4 (amended): `extract_content_from_response` tries, in order,
`choices[0].message.content`, `choices[0].text`, top-level
`message.content`, top-level `content`, top-level `response`, and returns
the first of these that is **present** (with non-emptiness required only of
the `choices` list and of the top-level `message` value, which gate their
sub-lookups); a present-but-empty content value wins. -/
theorem extract_priority_order (data : PyVal) :
    extract_content_from_response data =
      (choicesMessageContent data <|> choicesText data <|> topMessageContent data <|>
        data.dGet "content" <|> data.dGet "response") := by
  unfold extract_content_from_response extractChoicesBlock extractMessageBlock
    choicesMessageContent choicesText topMessageContent
  rcases hcs : data.dGet "choices" with _ | cs
  · rcases hm : data.dGet "message" with _ | m
    · rcases hc : data.dGet "content" with _ | c <;> simp_all [Option.orElse]
    · cases htr : m.truthy <;>
        rcases hmc : m.dGet "content" with _ | mc <;>
          rcases hc : data.dGet "content" with _ | c <;> simp_all [Option.orElse]
  · cases hctr : cs.truthy
    · rcases hm : data.dGet "message" with _ | m
      · rcases hc : data.dGet "content" with _ | c <;> simp_all [Option.orElse]
      · cases htr : m.truthy <;>
          rcases hmc : m.dGet "content" with _ | mc <;>
            rcases hc : data.dGet "content" with _ | c <;> simp_all [Option.orElse]
    · rcases hmsg : (cs.first).dGet "message" with _ | msg
      · rcases htxt : (cs.first).dGet "text" with _ | t
        · rcases hm : data.dGet "message" with _ | m
          · rcases hc : data.dGet "content" with _ | c <;> simp_all [Option.orElse]
          · cases htr : m.truthy <;>
              rcases hmc : m.dGet "content" with _ | mc <;>
                rcases hc : data.dGet "content" with _ | c <;> simp_all [Option.orElse]
        · simp_all [Option.orElse]
      · rcases hcont : msg.dGet "content" with _ | c
        · rcases htxt : (cs.first).dGet "text" with _ | t
          · rcases hm : data.dGet "message" with _ | m
            · rcases hc : data.dGet "content" with _ | c <;> simp_all [Option.orElse]
            · cases htr : m.truthy <;>
                rcases hmc : m.dGet "content" with _ | mc <;>
                  rcases hc : data.dGet "content" with _ | c <;> simp_all [Option.orElse]
          · simp_all [Option.orElse]
        · simp_all [Option.orElse]

/-- C3 (counterexample): when the OpenAI-compatible leg dies with
`"Connection refused by /v1/chat/completions"` and the native leg with
`"Read timed out on /api/chat"`, `make_llm_request` raises the fixed
message `"Could not extract content from any LLM endpoint"`, which names
neither underlying error. -/
theorem make_llm_request_names_neither_error :
    make_llm_request (.error "Connection refused by /v1/chat/completions")
        (.error "Read timed out on /api/chat")
      = .error "Could not extract content from any LLM endpoint"
    ∧ strContains "Could not extract content from any LLM endpoint"
        "Connection refused by /v1/chat/completions" = false
    ∧ strContains "Could not extract content from any LLM endpoint"
        "Read timed out on /api/chat" = false :=
  ⟨rfl, rfl, rfl⟩

/-- C3 (amended): whenever both the OpenAI-compatible leg and the native
leg fail or yield no truthy content, `make_llm_request` raises a single
`ValueError` with the fixed message
`"Could not extract content from any LLM endpoint"` — it does not name the
underlying errors. -/
theorem make_llm_request_dual_failure (o nv : LegOutcome)
    (ho : openaiLegContent o = Option.none)
    (hn : nativeLegContent nv = Option.none) :
    make_llm_request o nv
      = .error "Could not extract content from any LLM endpoint" := by
  unfold make_llm_request
  rw [ho, hn]

/-- Witness for `make_llm_request_dual_failure` at two concrete dead legs. -/
theorem make_llm_request_dual_failure_witness :
    make_llm_request (.error "leg A down") (.error "leg B down")
      = .error "Could not extract content from any LLM endpoint" :=
  make_llm_request_dual_failure (.error "leg A down") (.error "leg B down")
    rfl rfl

/-- C5 (counterexample): with no local model path and the preferred
`HuggingFaceEmbedding` download failing, module initialization completes
normally (`Except.ok`, no abort) with `SimpleMockEmbedding` installed —
the degraded fallback is chosen silently as the default. -/
theorem embed_init_silent_fallback :
    initEmbedModel Option.none (fun _ => false)
        (fun _ => .error "download failed")
      = .ok EmbedModel.simpleMock := rfl

/-- C5 (amended): embedding initialization never aborts startup — it
always completes with some model installed — and whenever the preferred
`HuggingFaceEmbedding` construction fails, the hash-derived
`SimpleMockEmbedding` is installed automatically (flagged only by log
lines), not surfaced as an error. -/
theorem embed_init_never_aborts (lp : Option String)
    (pe : String → Bool) (hfInit : String → Except String Unit)
    (e : String) (hf : hfInit (chosenEmbedModelName lp pe) = .error e) :
    (∃ m, initEmbedModel lp pe hfInit = .ok m)
    ∧ initEmbedModel lp pe hfInit = .ok .simpleMock := by
  unfold initEmbedModel
  rw [hf]
  exact ⟨⟨.simpleMock, rfl⟩, rfl⟩

/-- Witness for `embed_init_never_aborts`: preferred init fails with
`"download failed"`, the mock embedding is silently installed. -/
theorem embed_init_never_aborts_witness :
    (∃ m, initEmbedModel Option.none (fun _ => false)
        (fun _ => .error "download failed") = .ok m)
    ∧ initEmbedModel Option.none (fun _ => false)
        (fun _ => .error "download failed") = .ok .simpleMock :=
  embed_init_never_aborts Option.none (fun _ => false)
    (fun _ => .error "download failed") "download failed" rfl

/-- C7 (counterexample): with a query engine that succeeds, `query_vault`
called with `top_k = 0` is not rejected: it performs the query and returns
an Answer dictionary. -/
theorem query_vault_accepts_zero_top_k :
    query_vault (fun _ _ => .ok ("an answer", [])) "what color is the sky" 0
      = .ok ⟨"an answer", [], "what color is the sky"⟩ := rfl

/-- C7 (amended): `query_vault` performs no validation of `top_k` at all —
for every `top_k`, including `top_k ≤ 0`, it hands `top_k` unchanged to the
query engine and returns an Answer whenever the engine succeeds, failing
only when the engine itself raises. -/
theorem query_vault_no_topk_validation
    (engine : String → Int → Except String (String × List SourceNode))
    (q : String) (k : Int) :
    query_vault engine q k =
      match engine q k with
      | .ok p => .ok ⟨p.1, p.2.map sourceInfoOfNode, q⟩
      | .error e => .error e := by
  unfold query_vault queryVaultAttempt
  rcases h : engine q k with e | p <;> simp [h, retryExcept]

/-- C9: `get_index_stats` never raises: for every outcome of the store
access it returns a mapping — on success the three keys `total_documents`
(the collection count), `collection_name` and `db_path`; on an internal
error the empty mapping. -/
theorem get_index_stats_contract (vs : Except String ChromaDB)
    (dbPath : String) :
    (∃ db, vs = .ok db ∧ get_index_stats vs dbPath =
        [("total_documents", .nat db.entries.length),
         ("collection_name", .str "obsidian_knowledge"),
         ("db_path", .str dbPath)])
    ∨ (∃ e, vs = .error e ∧ get_index_stats vs dbPath = []) := by
  cases vs with
  | ok db => exact .inl ⟨db, rfl, rfl⟩
  | error e => exact .inr ⟨e, rfl, rfl⟩

/-- Helper: filtering a list by a predicate and by its negation partitions
its length. -/
theorem length_filter_partition {α : Type} (p : α → Bool) (l : List α) :
    l.length = (l.filter fun a => !(p a)).length + (l.filter p).length := by
  induction l with
  | nil => rfl
  | cons x xs ih =>
    cases h : p x <;> simp [List.filter_cons, h, ih] <;> omega

/-- C6 (counterexample): on a collection holding exactly one chunk of
`a.md`, `remove_from_index("notes/a.md")` removes that one entry but
returns Python `None`, not the count `1`; and on a collection with no
match it warns and again returns `None`, not `0`. -/
theorem remove_from_index_returns_none :
    (remove_from_index "notes/a.md" ⟨0, [⟨"a.md", "hello"⟩], true⟩).2.entries = []
    ∧ (remove_from_index "notes/a.md" ⟨0, [⟨"a.md", "hello"⟩], true⟩).1
        = .ok Option.none
    ∧ (remove_from_index "notes/a.md" ⟨0, [⟨"a.md", "hello"⟩], true⟩).1
        ≠ .ok (some 1)
    ∧ (remove_from_index "notes/b.md" ⟨0, [⟨"a.md", "hello"⟩], true⟩).1
        ≠ .ok (some 0) := by
  have h1 : (remove_from_index "notes/a.md"
      ⟨0, [⟨"a.md", "hello"⟩], true⟩).1 = .ok Option.none := rfl
  have h2 : (remove_from_index "notes/b.md"
      ⟨0, [⟨"a.md", "hello"⟩], true⟩).1 = .ok Option.none := rfl
  refine ⟨rfl, h1, fun h => ?_, fun h => ?_⟩
  · have h3 := h1.symm.trans h
    injection h3 with h4
    exact Option.noConfusion h4
  · have h3 := h2.symm.trans h
    injection h3 with h4
    exact Option.noConfusion h4

/-- C6 (amended): `remove_from_index(p)` deletes exactly the entries whose
`file_name` equals `basename(p)` — every non-matching entry survives, no
remaining entry matches, and the total count drops by exactly the number of
matching entries — it does not fail when nothing matches, and it always
returns `None` (never a count). -/
theorem remove_from_index_spec (file_path : String) (db : ChromaDB) :
    (remove_from_index file_path db).1 = .ok Option.none
    ∧ (∀ e ∈ (remove_from_index file_path db).2.entries,
        e.file_name ≠ basename file_path)
    ∧ (∀ e ∈ db.entries, e.file_name ≠ basename file_path →
        e ∈ (remove_from_index file_path db).2.entries)
    ∧ (∀ e ∈ (remove_from_index file_path db).2.entries, e ∈ db.entries)
    ∧ db.entries.length = (remove_from_index file_path db).2.entries.length
        + (db.entries.filter fun e => e.file_name == basename file_path).length := by
  have hresult : (remove_from_index file_path db).1 = .ok Option.none := by
    unfold remove_from_index
    by_cases hm :
        (db.entries.filter fun e => e.file_name == basename file_path).isEmpty <;>
      simp [hm]
  have hentries : (remove_from_index file_path db).2.entries
      = db.entries.filter fun e => !(e.file_name == basename file_path) := by
    unfold remove_from_index
    by_cases hm :
        (db.entries.filter fun e => e.file_name == basename file_path).isEmpty
    · simp only [hm, if_pos]
      rw [List.isEmpty_iff, List.filter_eq_nil_iff] at hm
      rw [eq_comm, List.filter_eq_self]
      intro a ha
      simpa using hm a ha
    · simp [hm]
  refine ⟨hresult, ?_, ?_, ?_, ?_⟩
  · intro e he
    rw [hentries] at he
    have := List.of_mem_filter he
    simpa using this
  · intro e he hne
    rw [hentries]
    exact List.mem_filter_of_mem he (by simpa using hne)
  · intro e he
    rw [hentries] at he
    exact List.mem_of_mem_filter he
  · rw [hentries]
    exact length_filter_partition _ db.entries

/-- Witness for `remove_from_index_spec`: a collection holding one chunk of
`a.md` and one of `b.md`, with `notes/a.md` removed. -/
theorem remove_from_index_spec_witness :
    (remove_from_index "notes/a.md"
        ⟨0, [⟨"a.md", "x"⟩, ⟨"b.md", "y"⟩], true⟩).1 = .ok Option.none
    ∧ (∀ e ∈ (remove_from_index "notes/a.md"
        ⟨0, [⟨"a.md", "x"⟩, ⟨"b.md", "y"⟩], true⟩).2.entries,
        e.file_name ≠ basename "notes/a.md")
    ∧ (∀ e ∈ (⟨0, [⟨"a.md", "x"⟩, ⟨"b.md", "y"⟩], true⟩ : ChromaDB).entries,
        e.file_name ≠ basename "notes/a.md" →
        e ∈ (remove_from_index "notes/a.md"
          ⟨0, [⟨"a.md", "x"⟩, ⟨"b.md", "y"⟩], true⟩).2.entries)
    ∧ (∀ e ∈ (remove_from_index "notes/a.md"
        ⟨0, [⟨"a.md", "x"⟩, ⟨"b.md", "y"⟩], true⟩).2.entries,
        e ∈ (⟨0, [⟨"a.md", "x"⟩, ⟨"b.md", "y"⟩], true⟩ : ChromaDB).entries)
    ∧ (⟨0, [⟨"a.md", "x"⟩, ⟨"b.md", "y"⟩], true⟩ : ChromaDB).entries.length
        = (remove_from_index "notes/a.md"
            ⟨0, [⟨"a.md", "x"⟩, ⟨"b.md", "y"⟩], true⟩).2.entries.length
          + ((⟨0, [⟨"a.md", "x"⟩, ⟨"b.md", "y"⟩], true⟩ : ChromaDB).entries.filter
              fun e => e.file_name == basename "notes/a.md").length :=
  remove_from_index_spec "notes/a.md" ⟨0, [⟨"a.md", "x"⟩, ⟨"b.md", "y"⟩], true⟩

/-- Helper: `retryState 2` runs the body once and, on failure, once more
from the state the failed attempt left behind. -/
theorem retryState_two {A : Type} (f : ChromaDB → Except String A × ChromaDB)
    (db : ChromaDB) :
    retryState 2 f db =
      match f db with
      | (.ok a, db') => (.ok a, db')
      | (.error _, db') => f db' := rfl

/-- Helper: one `index_vault(force=True)` attempt when the store supports
the bulk delete-all: the collection is cleared in place and then filled
with exactly the chunks of the loaded documents. -/
theorem indexVaultAttempt_supported (docs : List Document) (db : ChromaDB)
    (hs : db.deleteAllSupported = true) :
    indexVaultAttempt docs true db =
      (.ok (if docs.isEmpty then Option.none else some ()),
       { db with entries := if docs.isEmpty then [] else chunksOf docs }) := by
  unfold indexVaultAttempt get_vector_store collectionDeleteAll collectionInsert
  cases hd : docs.isEmpty <;> simp [hs, hd]

/-- Helper: one `index_vault(force=True)` attempt when the bulk delete-all
is unsupported: the collection is dropped and recreated, but the insert
then goes through the stale pre-drop handle and fails, leaving the
recreated collection empty. -/
theorem indexVaultAttempt_unsupported (docs : List Document) (db : ChromaDB)
    (hs : db.deleteAllSupported = false) :
    indexVaultAttempt docs true db =
      (if docs.isEmpty then (.ok Option.none, deleteAndRecreate db)
       else (.error "collection does not exist", deleteAndRecreate db)) := by
  unfold indexVaultAttempt get_vector_store collectionDeleteAll
    collectionInsert deleteAndRecreate
  cases hd : docs.isEmpty <;> simp [hs, hd]

/-- Helper: `index_vault(force=True)` on a store supporting delete-all:
one successful attempt, final entries exactly the loaded chunks. -/
theorem index_vault_supported (docs : List Document) (db : ChromaDB)
    (hs : db.deleteAllSupported = true) :
    index_vault docs true db =
      (.ok (if docs.isEmpty then Option.none else some ()),
       { db with entries := if docs.isEmpty then [] else chunksOf docs }) := by
  unfold index_vault
  rw [retryState_two, indexVaultAttempt_supported docs db hs]

/-- Helper: `index_vault(force=True)` on a store without delete-all: with
documents to index, both attempts fail through the stale handle and the
collection ends empty after two drop-and-recreate rounds. -/
theorem index_vault_unsupported (docs : List Document) (db : ChromaDB)
    (hs : db.deleteAllSupported = false) :
    index_vault docs true db =
      (if docs.isEmpty then (.ok Option.none, deleteAndRecreate db)
       else (.error "collection does not exist",
             deleteAndRecreate (deleteAndRecreate db))) := by
  unfold index_vault
  rw [retryState_two, indexVaultAttempt_unsupported docs db hs]
  cases hd : docs.isEmpty
  · rw [if_neg (by simp [hd]), if_neg (by simp [hd])]
    dsimp only
    rw [indexVaultAttempt_unsupported docs (deleteAndRecreate db)
      (by simp [deleteAndRecreate, hs])]
    rw [if_neg (by simp [hd])]
  · rw [if_pos (by simp [hd]), if_pos (by simp [hd])]

/-- C1: `rebuild_index(force=true)`'s fallback path does not reach the same
end state as the primary path.  On a store where the bulk delete-all is
unsupported (the exact situation the fallback exists for), the source drops
and recreates the collection but keeps inserting through the
`storage_context` built from the pre-drop `vector_store` (line 140; the
reassignment on line 154 never reaches it), so with one vault document the
call raises and the recreated collection stays empty — while the same call
on a store with working delete-all succeeds and ends with exactly the
loaded chunks. -/
theorem index_vault_fallback_bug :
    (index_vault [⟨"a.md", ["The sky is blue."]⟩] true
        ⟨0, [⟨"old.md", "stale"⟩], false⟩).1 = .error "collection does not exist"
    ∧ (index_vault [⟨"a.md", ["The sky is blue."]⟩] true
        ⟨0, [⟨"old.md", "stale"⟩], false⟩).2.entries = []
    ∧ (index_vault [⟨"a.md", ["The sky is blue."]⟩] true
        ⟨0, [⟨"old.md", "stale"⟩], true⟩).1 = .ok (some ())
    ∧ (index_vault [⟨"a.md", ["The sky is blue."]⟩] true
        ⟨0, [⟨"old.md", "stale"⟩], true⟩).2.entries
      = chunksOf [⟨"a.md", ["The sky is blue."]⟩] :=
  ⟨rfl, rfl, rfl, rfl⟩

/-- C2: forced full rebuild is idempotent on the document count — for any
fixed document set and any starting store, running
`index_vault(force_reindex=True)` twice in sequence leaves the collection
with the same total document count after each run (no duplication across
forced rebuilds); this holds on the delete-all path and on the fallback
path alike. -/
theorem index_vault_forced_rebuild_same_count (docs : List Document)
    (db : ChromaDB) :
    ((index_vault docs true (index_vault docs true db).2).2).entries.length
      = ((index_vault docs true db).2).entries.length := by
  cases hs : db.deleteAllSupported
  · rw [index_vault_unsupported docs db hs]
    cases hd : docs.isEmpty
    · rw [if_neg (by simp [hd])]
      dsimp only
      rw [index_vault_unsupported docs (deleteAndRecreate (deleteAndRecreate db))
        (by simp [deleteAndRecreate, hs])]
      rw [if_neg (by simp [hd])]
      simp [deleteAndRecreate]
    · rw [if_pos (by simp [hd])]
      dsimp only
      rw [index_vault_unsupported docs (deleteAndRecreate db)
        (by simp [deleteAndRecreate, hs])]
      rw [if_pos (by simp [hd])]
      simp [deleteAndRecreate]
  · rw [index_vault_supported docs db hs]
    dsimp only
    rw [index_vault_supported docs _ (by simp [hs])]

/-- Helper: `incremental_index` on at least one loaded document appends the
documents' chunks to the collection and touches nothing else. -/
theorem incremental_index_nonempty (docs : List Document) (db : ChromaDB)
    (hne : docs ≠ []) :
    incremental_index docs db
      = (.ok (), { db with entries := db.entries ++ chunksOf docs }) := by
  unfold incremental_index
  rw [retryState_two]
  unfold incrementalIndexAttempt get_vector_store collectionInsert
  have hd : docs.isEmpty = false := by
    cases docs with
    | nil => exact absurd rfl hne
    | cons d ds => rfl
  simp [hd]

/-- C8: on a file yielding at least one loadable document (with at least
one chunk), `incremental_index` succeeds, only inserts — the prior entries
survive unchanged as a prefix and the new chunks are appended — and two
successive calls on the unchanged file each grow `total_documents` by the
same positive delta (duplicates accumulate). -/
theorem incremental_index_accumulates (docs : List Document) (db : ChromaDB)
    (hne : docs ≠ []) (hch : chunksOf docs ≠ []) :
    (incremental_index docs db).1 = .ok ()
    ∧ (incremental_index docs db).2.entries = db.entries ++ chunksOf docs
    ∧ (incremental_index docs (incremental_index docs db).2).2.entries
        = db.entries ++ chunksOf docs ++ chunksOf docs
    ∧ (incremental_index docs db).2.entries.length
        = db.entries.length + (chunksOf docs).length
    ∧ (incremental_index docs (incremental_index docs db).2).2.entries.length
        = (incremental_index docs db).2.entries.length + (chunksOf docs).length
    ∧ 0 < (chunksOf docs).length := by
  have h1 := incremental_index_nonempty docs db hne
  have h2 := incremental_index_nonempty docs
    { db with entries := db.entries ++ chunksOf docs } hne
  refine ⟨by rw [h1], by rw [h1], ?_, by rw [h1]; simp, ?_, List.length_pos.mpr hch⟩
  · rw [h1]
    dsimp only
    rw [h2]
  · rw [h1]
    dsimp only
    rw [h2]
    simp [Nat.add_assoc]

/-- Witness for `incremental_index_accumulates`: one document `a.md` with
one chunk, indexed twice into an empty collection. -/
theorem incremental_index_accumulates_witness :
    (incremental_index [⟨"a.md", ["blue"]⟩] ⟨0, [], true⟩).1 = .ok ()
    ∧ (incremental_index [⟨"a.md", ["blue"]⟩] ⟨0, [], true⟩).2.entries
        = ([] : List Entry) ++ chunksOf [⟨"a.md", ["blue"]⟩]
    ∧ (incremental_index [⟨"a.md", ["blue"]⟩]
          (incremental_index [⟨"a.md", ["blue"]⟩] ⟨0, [], true⟩).2).2.entries
        = ([] : List Entry) ++ chunksOf [⟨"a.md", ["blue"]⟩]
            ++ chunksOf [⟨"a.md", ["blue"]⟩]
    ∧ 0 < (chunksOf [⟨"a.md", ["blue"]⟩]).length :=
  have h := incremental_index_accumulates [⟨"a.md", ["blue"]⟩] ⟨0, [], true⟩
    (by simp) (by simp [chunksOf])
  ⟨h.1, h.2.1, h.2.2.1, h.2.2.2.2.2⟩

/-- Helper: prepending the current delay to the sleeps of the remaining
attempts (whose delays start at `delay * backoff`) gives the sleeps of one
more attempt starting at `delay`. -/
theorem sleepsShift (d b m : Nat) :
    d :: (List.range m).map (fun i => d * b * b ^ i)
      = (List.range (m + 1)).map fun i => d * b ^ i := by
  rw [List.range_succ_eq_map, List.map_cons, List.map_map]
  congr 1
  · simp
  · have h : ((fun i => d * b ^ i) ∘ Nat.succ) = fun i => d * b * b ^ i := by
      funext i
      simp only [Function.comp, pow_succ]
      ring
    rw [h]

/-- Helper: when every attempt from `a` through `maxAttempts` raises, the
loop invokes the function once per remaining attempt, sleeps the
geometrically growing delays between attempts, and re-raises the final
attempt's exception. -/
theorem retryGo_fail {A : Type} (f : Nat → Except String A) (n b : Nat) :
    ∀ m a d, n - a = m → a ≤ n →
      (∀ k, a ≤ k → k ≤ n → exceptOk (f k) = false) →
      retryGo f n a d b
        = ⟨.raised (errStr (f n)), n - a + 1,
           (List.range (n - a)).map fun i => d * b ^ i⟩ := by
  intro m
  induction m with
  | zero =>
    intro a d hm ha hfail
    have ha' : a = n := by omega
    subst ha'
    have hfa := hfail a le_rfl le_rfl
    obtain ⟨e, hfe⟩ : ∃ e, f a = .error e := by
      cases hq : f a with
      | ok v => rw [hq] at hfa; simp [exceptOk] at hfa
      | error e => exact ⟨e, rfl⟩
    rw [retryGo]
    simp [hfe, errStr, Nat.sub_self]
  | succ m ih =>
    intro a d hm ha hfail
    have hlt : a < n := by omega
    have hfa := hfail a le_rfl (by omega)
    obtain ⟨e, hfe⟩ : ∃ e, f a = .error e := by
      cases hq : f a with
      | ok v => rw [hq] at hfa; simp [exceptOk] at hfa
      | error e => exact ⟨e, rfl⟩
    rw [retryGo, if_pos ha, hfe]
    dsimp only
    rw [if_neg (by omega : ¬ a = n)]
    rw [ih (a + 1) (d * b) (by omega) (by omega)
      (fun k hk1 hk2 => hfail k (by omega) hk2)]
    dsimp only
    have hm2 : n - (a + 1) = m := by omega
    rw [hm, hm2, sleepsShift]

/-- Helper: when every attempt from `a` up to (but excluding) `j` raises
and attempt `j` returns `v`, the loop invokes the function once per attempt
through `j`, sleeps between consecutive attempts, and returns `v`. -/
theorem retryGo_success {A : Type} (f : Nat → Except String A)
    (n b j : Nat) (v : A) (hjn : j ≤ n) (hj : f j = .ok v) :
    ∀ m a d, j - a = m → a ≤ j →
      (∀ k, a ≤ k → k < j → exceptOk (f k) = false) →
      retryGo f n a d b
        = ⟨.returned v, j - a + 1,
           (List.range (j - a)).map fun i => d * b ^ i⟩ := by
  intro m
  induction m with
  | zero =>
    intro a d hm haj hfail
    have ha' : a = j := by omega
    subst ha'
    rw [retryGo, if_pos (by omega : a ≤ n), hj]
    simp [Nat.sub_self]
  | succ m ih =>
    intro a d hm haj hfail
    have hlt : a < j := by omega
    have hfa := hfail a le_rfl (by omega)
    obtain ⟨e, hfe⟩ : ∃ e, f a = .error e := by
      cases hq : f a with
      | ok w => rw [hq] at hfa; simp [exceptOk] at hfa
      | error e => exact ⟨e, rfl⟩
    rw [retryGo, if_pos (by omega : a ≤ n), hfe]
    dsimp only
    rw [if_neg (by omega : ¬ a = n)]
    rw [ih (a + 1) (d * b) (by omega) (by omega)
      (fun k hk1 hk2 => hfail k (by omega) hk2)]
    dsimp only
    have hm2 : j - (a + 1) = m := by omega
    rw [hm, hm2, sleepsShift]

/-- C10: for `retry(max_attempts=n, delay=d, backoff=b)` with `n ≥ 1`
wrapping a function whose `k`-th invocation yields `f k`: if the attempts
before some `j ≤ n` all raise and attempt `j` returns `v`, the wrapper
returns `v` after exactly `j` invocations, having slept
`d·b^(k−1)` between attempts `k` and `k+1`; and if every attempt raises,
the wrapper makes exactly `n` invocations, sleeps the same schedule, and
re-raises the exception of the `n`-th invocation. -/
theorem retry_contract {A : Type} (n d b : Nat) (f : Nat → Except String A)
    (hn : 1 ≤ n) :
    (∀ j v, 1 ≤ j → j ≤ n →
      (∀ k, 1 ≤ k → k < j → exceptOk (f k) = false) → f j = .ok v →
      retryRun n d b f
        = ⟨.returned v, j, (List.range (j - 1)).map fun i => d * b ^ i⟩)
    ∧ ((∀ k, 1 ≤ k → k ≤ n → exceptOk (f k) = false) →
      (∃ e, f n = .error e ∧
        retryRun n d b f
          = ⟨.raised e, n, (List.range (n - 1)).map fun i => d * b ^ i⟩)) := by
  constructor
  · intro j v h1 hjn hfail hj
    have h := retryGo_success f n b j v hjn hj (j - 1) 1 d rfl h1 hfail
    rw [retryRun, h, Nat.sub_add_cancel h1]
  · intro hfail
    have hfn := hfail n hn le_rfl
    obtain ⟨e, hfe⟩ : ∃ e, f n = .error e := by
      cases hq : f n with
      | ok v => rw [hq] at hfn; simp [exceptOk] at hfn
      | error e => exact ⟨e, rfl⟩
    refine ⟨e, hfe, ?_⟩
    have h := retryGo_fail f n b (n - 1) 1 d rfl hn hfail
    rw [retryRun, h, Nat.sub_add_cancel hn, hfe]
    rfl

/-- Witness for `retry_contract` at `max_attempts=3, delay=2, backoff=2`
with a function that raises on attempts 1–2 and succeeds on attempt 3: the
wrapper returns the attempt-3 value after 3 calls, sleeping 2 s then 4 s. -/
theorem retry_contract_witness :
    retryRun 3 2 2
        (fun k => if k == 3 then (.ok 42 : Except String Nat) else .error "boom")
      = ⟨.returned 42, 3, [2, 4]⟩ := by
  have h := (retry_contract 3 2 2
      (fun k => if k == 3 then (.ok 42 : Except String Nat) else .error "boom")
      (by omega)).1 3 42 (by omega) (by omega)
    (by intro k h1 h2; interval_cases k <;> rfl) rfl
  rw [h]
  rfl

end KnowledgeRepo
